import Mathlib

/-!
Shallow embedding of `src/lib/utils/parameter-store-helper.ts`
(eduka3d infrastructure repository): the Parameter-Store-to-container-secrets
assembly utility and its IAM policy builders.
-/

/-- The informational parameter kind of a `ParameterSecret`
(TS union `"String" | "SecureString"`). -/
inductive ParamType where
  | string
  | secureString
deriving DecidableEq

/-- Configuration for a Parameter Store secret (TS interface `ParameterSecret`):
`environmentVariable`, `parameterPath`, optional `type`, optional `required`. -/
structure ParameterSecret where
  environmentVariable : String
  parameterPath : String
  type : Option ParamType := none
  required : Option Bool := none
deriving DecidableEq

/-- An ECS secret reference as produced by `ecs.Secret.fromSsmParameter`:
an opaque handle bound to the parameter it points at.  Only the bound
parameter name is semantically relevant to the helper. -/
structure EcsSecret where
  parameterName : String
deriving DecidableEq

/-- Failure kinds the external secret-storage system can raise during
reference construction (the code distinguishes none of them: its
`catch (error)` clause is unconditional). -/
inductive StoreError where
  | notFound
  | authFailure
  | malformedPath
  | throttling
deriving DecidableEq

/-- Behaviour of the external secret-storage collaborator: for each
parameter path, reference construction either succeeds (`none`) or raises
the given error (`some e`). -/
abbrev StoreBehavior : Type := String → Option StoreError

/-- Function `createParameterStoreSecret construct logicalId parameterPath`:
builds an ECS secret reference bound to `parameterPath` via the external
storage system, or raises whatever error that system signals.  The CDK
construct argument is irrelevant to the returned reference and is dropped;
the logical id (the environment variable name at the call site) does not
affect the reference either. -/
def createParameterStoreSecret (store : StoreBehavior) (logicalId : String)
    (parameterPath : String) : Except StoreError EcsSecret :=
  match store parameterPath with
  | some e => .error e
  | none => .ok { parameterName := parameterPath }

/-- Path resolution step inside `createSecretsMap`: a `parameterPath`
containing the separator `/` is treated as already absolute and returned
unchanged; a bare key is namespaced as `/eduka3d/{environment}/{key}`. -/
def resolvePath (environment : String) (param : ParameterSecret) : String :=
  if param.parameterPath.data.contains '/' then
    param.parameterPath
  else
    "/eduka3d/" ++ environment ++ "/" ++ param.parameterPath

/-- The warning text printed by `console.warn` when a secret cannot be
created. -/
def warnMessage (environmentVariable parameterPath : String) : String :=
  "Warning: Could not create secret for " ++ environmentVariable ++ " at "
    ++ parameterPath

/-- The result mapping of `createSecretsMap`: a JS-object-like association
list keyed by environment variable name. -/
abbrev SecretsMap : Type := List (String × EcsSecret)

/-- JS object assignment `m[k] = v`: overwrite the value at an existing key
in place, else append the new binding. -/
def mapInsert : SecretsMap → String → EcsSecret → SecretsMap
  | [], k, v => [(k, v)]
  | (k', v') :: rest, k, v =>
      if k' = k then (k', v) :: rest else (k', v') :: mapInsert rest k v

/-- JS object read `m[k]`. -/
def mapLookup : SecretsMap → String → Option EcsSecret
  | [], _ => none
  | (k', v') :: rest, k => if k' = k then some v' else mapLookup rest k

/-- One iteration of the `for (const param of parameters)` loop of
`createSecretsMap`: resolve the path, try to build the reference and insert
it under `param.environmentVariable`; on ANY error (`catch (error)` is
unconditional) keep the map unchanged and warn iff `required !== false`. -/
def processParam (store : StoreBehavior) (environment : String)
    (acc : SecretsMap × List String) (param : ParameterSecret) :
    Except StoreError (SecretsMap × List String) :=
  let parameterPath := resolvePath environment param
  match createParameterStoreSecret store param.environmentVariable parameterPath with
  | .ok secret => .ok (mapInsert acc.1 param.environmentVariable secret, acc.2)
  | .error _ =>
      if param.required ≠ some false then
        .ok (acc.1, acc.2 ++ [warnMessage param.environmentVariable parameterPath])
      else
        .ok (acc.1, acc.2)

/-- Function `createSecretsMap construct environment parameters`: folds the loop body
over the spec list starting from the empty map (and empty warning log),
in the exception monad of the storage system so that an uncaught error
would abort the whole assembly. -/
def createSecretsMap (store : StoreBehavior) (environment : String)
    (parameters : List ParameterSecret) :
    Except StoreError (SecretsMap × List String) :=
  parameters.foldlM (processParam store environment) ([], [])

/-- IAM policy statement effect. -/
inductive Effect where
  | allow
  | deny
deriving DecidableEq

/-- An IAM policy statement value: action list, resource patterns, effect. -/
structure PolicyStatement where
  actions : List String
  resources : List String
  effect : Effect
deriving DecidableEq

/-- Function `createParameterStorePolicy environment region accountId`: the allow
statement granting the three SSM read actions on
`arn:aws:ssm:{region}:{accountId}:parameter/eduka3d/{environment}/*`. -/
def createParameterStorePolicy (environment region accountId : String) :
    PolicyStatement where
  actions := ["ssm:GetParameter", "ssm:GetParameters", "ssm:GetParametersByPath"]
  resources :=
    ["arn:aws:ssm:" ++ region ++ ":" ++ accountId ++ ":parameter/eduka3d/"
      ++ environment ++ "/*"]
  effect := .allow

/-- Function `createKmsDecryptPolicy()`: the fixed allow statement granting
`kms:Decrypt` and `kms:DescribeKey` on every resource. -/
def createKmsDecryptPolicy : PolicyStatement where
  actions := ["kms:Decrypt", "kms:DescribeKey"]
  resources := ["*"]
  effect := .allow

/-- The ARN under which SSM stores a parameter at a given path (the
resource the policy pattern is matched against). -/
def parameterArn (region accountId path : String) : String :=
  "arn:aws:ssm:" ++ region ++ ":" ++ accountId ++ ":parameter" ++ path

/-- Character-list glob matching for IAM resource patterns restricted to
the trailing-wildcard case used here: a trailing `*` matches any remainder,
every other character matches literally. -/
def matchChars : List Char → List Char → Bool
  | [], [] => true
  | [], _ :: _ => false
  | p :: ps, cs =>
      match ps with
      | [] =>
          if p == '*' then true
          else
            match cs with
            | [c] => p == c
            | _ => false
      | p2 :: ps2 =>
          match cs with
          | [] => false
          | c :: cs2 => p == c && matchChars (p2 :: ps2) cs2

/-- String-level entry point of the pattern matcher. -/
def matchesPattern (pattern s : String) : Bool :=
  matchChars pattern.data s.data

/-- The `DEFAULT_PARAMETERS` configuration table (the PayPal block is
commented out in the source and therefore absent). -/
def DEFAULT_PARAMETERS : List ParameterSecret :=
  [ { environmentVariable := "DJANGO_SECRET_KEY",
      parameterPath := "DJANGO_SECRET_KEY",
      type := some .secureString, required := some true },
    { environmentVariable := "DJANGO_ALLOWED_HOSTS",
      parameterPath := "DJANGO_ALLOWED_HOSTS",
      type := some .string },
    { environmentVariable := "DJANGO_CSRF_TRUSTED_ORIGINS",
      parameterPath := "DJANGO_CSRF_TRUSTED_ORIGINS",
      type := some .string },
    { environmentVariable := "DATABASE_NAME",
      parameterPath := "DATABASE_NAME",
      type := some .string, required := some true },
    { environmentVariable := "DATABASE_USER",
      parameterPath := "DATABASE_USER",
      type := some .string, required := some true },
    { environmentVariable := "DATABASE_HOST",
      parameterPath := "DATABASE_HOST",
      type := some .string, required := some true },
    { environmentVariable := "DATABASE_PORT",
      parameterPath := "DATABASE_PORT",
      type := some .string, required := some true },
    { environmentVariable := "EMAIL_HOST",
      parameterPath := "EMAIL_HOST",
      type := some .string },
    { environmentVariable := "EMAIL_PORT",
      parameterPath := "EMAIL_PORT",
      type := some .string },
    { environmentVariable := "EMAIL_HOST_USER",
      parameterPath := "EMAIL_HOST_USER",
      type := some .string },
    { environmentVariable := "EMAIL_HOST_PASSWORD",
      parameterPath := "EMAIL_HOST_PASSWORD",
      type := some .secureString },
    { environmentVariable := "EMAIL_USE_TLS",
      parameterPath := "EMAIL_USE_TLS",
      type := some .string },
    { environmentVariable := "DEFAULT_FROM_EMAIL",
      parameterPath := "DEFAULT_FROM_EMAIL",
      type := some .string },
    { environmentVariable := "RECAPTCHA_PUBLIC_KEY",
      parameterPath := "RECAPTCHA_PUBLIC_KEY",
      type := some .string },
    { environmentVariable := "RECAPTCHA_PRIVATE_KEY",
      parameterPath := "RECAPTCHA_PRIVATE_KEY",
      type := some .secureString },
    { environmentVariable := "STRIPE_PUBLISHABLE_KEY",
      parameterPath := "STRIPE_PUBLISHABLE_KEY",
      type := some .string },
    { environmentVariable := "STRIPE_SECRET_KEY",
      parameterPath := "STRIPE_SECRET_KEY",
      type := some .secureString } ]

/-- Pure form of one loop iteration: the loop body never lets an error
escape, so it can be described without the exception monad. -/
def processParamPure (store : StoreBehavior) (environment : String)
    (acc : SecretsMap × List String) (param : ParameterSecret) :
    SecretsMap × List String :=
  let parameterPath := resolvePath environment param
  match createParameterStoreSecret store param.environmentVariable parameterPath with
  | .ok secret => (mapInsert acc.1 param.environmentVariable secret, acc.2)
  | .error _ =>
      if param.required ≠ some false then
        (acc.1, acc.2 ++ [warnMessage param.environmentVariable parameterPath])
      else
        (acc.1, acc.2)

/-- The unconditional catch clause makes every loop iteration succeed. -/
theorem processParam_eq_ok (store : StoreBehavior) (environment : String)
    (acc : SecretsMap × List String) (param : ParameterSecret) :
    processParam store environment acc param =
      .ok (processParamPure store environment acc param) := by
  unfold processParam processParamPure
  cases h : createParameterStoreSecret store param.environmentVariable
      (resolvePath environment param) with
  | ok s => simp [h]
  | error e =>
      simp only [h]
      by_cases hr : param.required ≠ some false <;> simp [hr]

/-- The pure run of the whole assembly loop. -/
def secretsRun (store : StoreBehavior) (environment : String)
    (parameters : List ParameterSecret) : SecretsMap × List String :=
  parameters.foldl (processParamPure store environment) ([], [])

/-- The monadic fold agrees with the pure fold from any accumulator. -/
theorem foldlM_processParam (store : StoreBehavior) (environment : String)
    (parameters : List ParameterSecret) (acc : SecretsMap × List String) :
    parameters.foldlM (processParam store environment) acc =
      .ok (parameters.foldl (processParamPure store environment) acc) := by
  induction parameters generalizing acc with
  | nil => rfl
  | cons p ps ih =>
      rw [List.foldlM_cons, processParam_eq_ok, List.foldl_cons]
      exact ih _

/-- Lemma: `createSecretsMap` always reduces to its pure run. -/
theorem createSecretsMap_eq_run (store : StoreBehavior) (environment : String)
    (parameters : List ParameterSecret) :
    createSecretsMap store environment parameters =
      .ok (secretsRun store environment parameters) :=
  foldlM_processParam store environment parameters ([], [])

/-- The secret reference a spec contributes when construction succeeds. -/
def successSecret (store : StoreBehavior) (environment : String)
    (param : ParameterSecret) : Option EcsSecret :=
  match store (resolvePath environment param) with
  | none => some { parameterName := resolvePath environment param }
  | some _ => none

/-- The warning a spec contributes: only on a construction failure, and
only when its `required` field is not literally `false`. -/
def specWarning (store : StoreBehavior) (environment : String)
    (param : ParameterSecret) : Option String :=
  match store (resolvePath environment param) with
  | some _ =>
      if param.required ≠ some false then
        some (warnMessage param.environmentVariable (resolvePath environment param))
      else none
  | none => none

/-- Map component of one loop iteration. -/
def buildStep (store : StoreBehavior) (environment : String)
    (m : SecretsMap) (param : ParameterSecret) : SecretsMap :=
  match successSecret store environment param with
  | some v => mapInsert m param.environmentVariable v
  | none => m

/-- First component of the pure loop body. -/
theorem processParamPure_fst (store : StoreBehavior) (environment : String)
    (acc : SecretsMap × List String) (param : ParameterSecret) :
    (processParamPure store environment acc param).1 =
      buildStep store environment acc.1 param := by
  unfold processParamPure buildStep successSecret createParameterStoreSecret
  cases h : store (resolvePath environment param) with
  | none => simp [h]
  | some e =>
      simp only [h]
      by_cases hr : param.required ≠ some false <;> simp [hr]

/-- Second component of the pure loop body. -/
theorem processParamPure_snd (store : StoreBehavior) (environment : String)
    (acc : SecretsMap × List String) (param : ParameterSecret) :
    (processParamPure store environment acc param).2 =
      acc.2 ++ (specWarning store environment param).toList := by
  unfold processParamPure specWarning createParameterStoreSecret
  cases h : store (resolvePath environment param) with
  | none => simp [h]
  | some e =>
      simp only [h]
      by_cases hr : param.required ≠ some false <;> simp [hr]

/-- The map produced by the loop is the fold of the map-only steps. -/
theorem secretsRun_fst (store : StoreBehavior) (environment : String)
    (parameters : List ParameterSecret) (acc : SecretsMap × List String) :
    (parameters.foldl (processParamPure store environment) acc).1 =
      parameters.foldl (buildStep store environment) acc.1 := by
  induction parameters generalizing acc with
  | nil => rfl
  | cons p ps ih =>
      rw [List.foldl_cons, List.foldl_cons, ih, processParamPure_fst]

/-- The warnings produced by the loop are exactly the per-spec warnings in
input order. -/
theorem secretsRun_snd (store : StoreBehavior) (environment : String)
    (parameters : List ParameterSecret) (acc : SecretsMap × List String) :
    (parameters.foldl (processParamPure store environment) acc).2 =
      acc.2 ++ parameters.filterMap (specWarning store environment) := by
  induction parameters generalizing acc with
  | nil => simp
  | cons p ps ih =>
      rw [List.foldl_cons, ih, List.filterMap_cons]
      rw [processParamPure_snd]
      cases specWarning store environment p <;> simp

/-- Reading back an inserted key finds the inserted value. -/
theorem mapLookup_mapInsert (m : SecretsMap) (k : String) (v : EcsSecret)
    (k' : String) :
    mapLookup (mapInsert m k v) k' = if k = k' then some v else mapLookup m k' := by
  induction m with
  | nil => simp [mapInsert, mapLookup]
  | cons kv rest ih =>
      obtain ⟨k0, v0⟩ := kv
      by_cases h0 : k0 = k
      · subst h0
        by_cases h1 : k0 = k' <;> simp [mapInsert, mapLookup, h1]
      · by_cases h1 : k0 = k' <;> by_cases h2 : k = k' <;>
          simp_all [mapInsert, mapLookup]

/-- Every binding of an insert comes from the old map or is the new key. -/
theorem mem_mapInsert (m : SecretsMap) (k : String) (v : EcsSecret)
    (kv : String × EcsSecret) :
    kv ∈ mapInsert m k v → kv ∈ m ∨ kv.1 = k := by
  induction m with
  | nil =>
      intro h
      simp [mapInsert] at h
      subst h
      exact Or.inr rfl
  | cons kv0 rest ih =>
      obtain ⟨k0, v0⟩ := kv0
      by_cases h0 : k0 = k
      · intro h
        simp only [mapInsert, if_pos h0] at h
        rcases List.mem_cons.mp h with h | h
        · exact Or.inr (by rw [h, h0])
        · exact Or.inl (List.mem_cons_of_mem _ h)
      · intro h
        simp only [mapInsert, if_neg h0] at h
        rcases List.mem_cons.mp h with h | h
        · exact Or.inl (by rw [h]; exact List.mem_cons_self _ _)
        · rcases ih h with h | h
          · exact Or.inl (List.mem_cons_of_mem _ h)
          · exact Or.inr h

/-- Every binding of the built map comes from the start map or carries the
environment variable of one of the processed specs. -/
theorem mem_foldl_buildStep (store : StoreBehavior) (environment : String)
    (parameters : List ParameterSecret) (m : SecretsMap)
    (kv : String × EcsSecret) :
    kv ∈ parameters.foldl (buildStep store environment) m →
      kv ∈ m ∨ ∃ p ∈ parameters, p.environmentVariable = kv.1 := by
  induction parameters generalizing m with
  | nil => intro h; exact Or.inl h
  | cons p ps ih =>
      intro h
      rw [List.foldl_cons] at h
      rcases ih _ h with h | ⟨q, hq, hq2⟩
      · unfold buildStep at h
        cases hs : successSecret store environment p with
        | some v =>
            rw [hs] at h
            rcases mem_mapInsert _ _ _ _ h with h | h
            · exact Or.inl h
            · exact Or.inr ⟨p, List.mem_cons_self _ _, h.symm⟩
        | none => rw [hs] at h; exact Or.inl h
      · exact Or.inr ⟨q, List.mem_cons_of_mem _ hq, hq2⟩

/-- The reference that the LAST spec writing a given key leaves in the map
(`none` when no spec writes the key). -/
def lastWrite (store : StoreBehavior) (environment k : String) :
    List ParameterSecret → Option EcsSecret
  | [] => none
  | p :: ps =>
      match lastWrite store environment k ps with
      | some v => some v
      | none =>
          if p.environmentVariable = k then successSecret store environment p
          else none

/-- Looking up a key in the built map yields the last successful write of
that key, falling back to the start map. -/
theorem mapLookup_foldl_buildStep (store : StoreBehavior) (environment : String)
    (parameters : List ParameterSecret) (m : SecretsMap) (k : String) :
    mapLookup (parameters.foldl (buildStep store environment) m) k =
      match lastWrite store environment k parameters with
      | some v => some v
      | none => mapLookup m k := by
  induction parameters generalizing m with
  | nil => rfl
  | cons p ps ih =>
      rw [List.foldl_cons, ih]
      cases h : lastWrite store environment k ps with
      | some v => simp only [lastWrite, h]
      | none =>
          simp only [lastWrite, h]
          unfold buildStep
          cases hs : successSecret store environment p with
          | some v =>
              rw [mapLookup_mapInsert]
              by_cases hk : p.environmentVariable = k <;> simp [hk, hs]
          | none =>
              by_cases hk : p.environmentVariable = k <;> simp [hk, hs]

/-- Lemma: `lastWrite` over an appended list prefers the right part. -/
theorem lastWrite_append (store : StoreBehavior) (environment k : String)
    (l1 l2 : List ParameterSecret) :
    lastWrite store environment k (l1 ++ l2) =
      match lastWrite store environment k l2 with
      | some v => some v
      | none => lastWrite store environment k l1 := by
  induction l1 with
  | nil =>
      rw [List.nil_append]
      cases h : lastWrite store environment k l2 <;> simp [lastWrite, h]
  | cons p ps ih =>
      rw [List.cons_append]
      simp only [lastWrite, ih]
      cases lastWrite store environment k l2 <;>
        cases lastWrite store environment k ps <;> rfl

/-- A list in which no spec carries the key leaves no last write. -/
theorem lastWrite_eq_none_of_no_key (store : StoreBehavior)
    (environment k : String) (l : List ParameterSecret)
    (h : ∀ q ∈ l, q.environmentVariable ≠ k) :
    lastWrite store environment k l = none := by
  induction l with
  | nil => rfl
  | cons p ps ih =>
      simp only [lastWrite, ih fun q hq => h q (List.mem_cons_of_mem _ hq)]
      rw [if_neg (h p (List.mem_cons_self _ _))]

/-- A list in which every spec carrying the key fails leaves no last write. -/
theorem lastWrite_eq_none_of_all_fail (store : StoreBehavior)
    (environment k : String) (l : List ParameterSecret)
    (h : ∀ q ∈ l, q.environmentVariable = k →
      successSecret store environment q = none) :
    lastWrite store environment k l = none := by
  induction l with
  | nil => rfl
  | cons p ps ih =>
      simp only [lastWrite, ih fun q hq => h q (List.mem_cons_of_mem _ hq)]
      by_cases hk : p.environmentVariable = k
      · rw [if_pos hk, h p (List.mem_cons_self _ _) hk]
      · rw [if_neg hk]

/-- Key uniqueness of a `SecretsMap`. -/
def keysNodup (m : SecretsMap) : Prop := (m.map Prod.fst).Nodup

/-- The key list of an insert. -/
theorem keys_mapInsert (m : SecretsMap) (k : String) (v : EcsSecret) :
    (mapInsert m k v).map Prod.fst =
      if k ∈ m.map Prod.fst then m.map Prod.fst else m.map Prod.fst ++ [k] := by
  induction m with
  | nil => simp [mapInsert]
  | cons kv rest ih =>
      obtain ⟨k0, v0⟩ := kv
      by_cases h0 : k0 = k
      · subst h0
        simp [mapInsert]
      · simp only [mapInsert, if_neg h0, List.map_cons, ih]
        by_cases hm : k ∈ rest.map Prod.fst
        · rw [if_pos hm, if_pos (List.mem_cons_of_mem k0 hm)]
        · have hm2 : k ∉ k0 :: rest.map Prod.fst := by
            intro hc
            rcases List.mem_cons.mp hc with hc | hc
            · exact h0 hc.symm
            · exact hm hc
          rw [if_neg hm, if_neg hm2, List.cons_append]

/-- Insert preserves key uniqueness. -/
theorem keysNodup_mapInsert (m : SecretsMap) (k : String) (v : EcsSecret)
    (h : keysNodup m) : keysNodup (mapInsert m k v) := by
  unfold keysNodup at h ⊢
  rw [keys_mapInsert]
  by_cases hm : k ∈ m.map Prod.fst
  · rwa [if_pos hm]
  · rw [if_neg hm]
    exact List.Nodup.append h (List.nodup_singleton k)
      (by simpa [List.disjoint_singleton] using hm)

/-- The built map has unique keys whenever the start map does. -/
theorem keysNodup_foldl_buildStep (store : StoreBehavior) (environment : String)
    (parameters : List ParameterSecret) (m : SecretsMap) (h : keysNodup m) :
    keysNodup (parameters.foldl (buildStep store environment) m) := by
  induction parameters generalizing m with
  | nil => exact h
  | cons p ps ih =>
      rw [List.foldl_cons]
      apply ih
      unfold buildStep
      cases successSecret store environment p with
      | some v => exact keysNodup_mapInsert _ _ _ h
      | none => exact h

/-- A key absent from the key list is counted zero times. -/
theorem countP_key_eq_zero (m : SecretsMap) (k : String)
    (h : k ∉ m.map Prod.fst) :
    List.countP (fun kv => kv.1 == k) m = 0 := by
  induction m with
  | nil => rfl
  | cons kv rest ih =>
      rw [List.map_cons, List.mem_cons] at h
      push_neg at h
      rw [List.countP_cons, ih h.2]
      have h1 : (kv.1 == k) = false := beq_eq_false_iff_ne.mpr (Ne.symm h.1)
      simp [h1]

/-- In a map with unique keys, a key that can be looked up occurs exactly
once among the bindings. -/
theorem countP_key_eq_one (m : SecretsMap) (k : String) (v : EcsSecret)
    (hn : keysNodup m) (hl : mapLookup m k = some v) :
    List.countP (fun kv => kv.1 == k) m = 1 := by
  induction m with
  | nil => simp [mapLookup] at hl
  | cons kv rest ih =>
      obtain ⟨k0, v0⟩ := kv
      unfold keysNodup at hn
      rw [List.map_cons, List.nodup_cons] at hn
      rw [List.countP_cons]
      by_cases h0 : k0 = k
      · subst h0
        have : k0 ∉ rest.map Prod.fst := hn.1
        simp [countP_key_eq_zero rest k0 this]
      · unfold mapLookup at hl
        rw [if_neg h0] at hl
        simp [ih hn.2 hl, h0]

/-- A spec with a bare key, reused as a concrete input by several witnesses. -/
def demoSpec : ParameterSecret :=
  { environmentVariable := "K", parameterPath := "K" }

/-- A storage behaviour on which every construction succeeds. -/
def okStore : StoreBehavior := fun _ => none

/-- A storage behaviour on which every construction raises not-found. -/
def failStore : StoreBehavior := fun _ => some .notFound

/-- C3: path resolution returns the spec's `parameterPath` unchanged when
that path contains the separator character `/`, and otherwise returns
exactly `/eduka3d/` ++ environment ++ `/` ++ parameterPath. -/
theorem resolvePath_absolute_or_namespaced (param : ParameterSecret)
    (environment : String) :
    (param.parameterPath.data.contains '/' = true →
      resolvePath environment param = param.parameterPath) ∧
    (param.parameterPath.data.contains '/' = false →
      resolvePath environment param =
        "/eduka3d/" ++ environment ++ "/" ++ param.parameterPath) := by
  constructor <;> intro h <;> rw [resolvePath, h]
  · rw [if_pos rfl]
  · rw [if_neg Bool.false_ne_true]

/-- Witness for C3 at two concrete specs, one per branch. -/
theorem resolvePath_absolute_or_namespaced_witness :
    resolvePath "dev" { environmentVariable := "K", parameterPath := "K" } =
      "/eduka3d/" ++ "dev" ++ "/" ++ "K" ∧
    resolvePath "dev" { environmentVariable := "A", parameterPath := "/x/y" } =
      "/x/y" :=
  ⟨(resolvePath_absolute_or_namespaced ⟨"K", "K", none, none⟩ "dev").2 (by decide),
   (resolvePath_absolute_or_namespaced ⟨"A", "/x/y", none, none⟩ "dev").1 (by decide)⟩

/-- Store used in the C5 counterexample: every construction attempt raises
an authentication failure, which is not a not-found failure. -/
def authFailStore : StoreBehavior := fun _ => some .authFailure

/-- C5 counterexample: with a storage system raising an authentication
failure for the spec's resolved path, `createSecretsMap` still returns
normally -- the entry omitted and a warning logged -- instead of letting
the exception propagate and abort the assembly, because the catch clause
in the source is unconditional. -/
theorem storage_error_propagation_counterexample :
    authFailStore (resolvePath "dev" ⟨"X", "X", none, none⟩) =
      some StoreError.authFailure ∧
    StoreError.authFailure ≠ StoreError.notFound ∧
    createSecretsMap authFailStore "dev" [⟨"X", "X", none, none⟩] =
      .ok ([], [warnMessage "X" "/eduka3d/dev/X"]) :=
  ⟨rfl, by decide, rfl⟩

/-- C5 amended: every exception from the storage system, not-found or
otherwise, is caught inside the loop; `createSecretsMap` never propagates
an error to its caller. -/
theorem createSecretsMap_never_aborts (store : StoreBehavior)
    (environment : String) (parameters : List ParameterSecret) :
    ∃ result, createSecretsMap store environment parameters = .ok result :=
  ⟨_, createSecretsMap_eq_run store environment parameters⟩

/-- C6: the Parameter Store access policy is, for all inputs, an allow
statement with exactly the three SSM read actions and a single resource
pattern ending in `/eduka3d/{environment}/*`. -/
theorem createParameterStorePolicy_shape (environment region accountId : String) :
    (createParameterStorePolicy environment region accountId).actions =
      ["ssm:GetParameter", "ssm:GetParameters", "ssm:GetParametersByPath"] ∧
    (createParameterStorePolicy environment region accountId).effect = .allow ∧
    ∃ pre,
      (createParameterStorePolicy environment region accountId).resources =
        [pre ++ "/eduka3d/" ++ environment ++ "/*"] := by
  refine ⟨rfl, rfl,
    "arn:aws:ssm:" ++ region ++ ":" ++ accountId ++ ":parameter", ?_⟩
  have hlit : (":parameter" ++ "/eduka3d/" : String) = ":parameter/eduka3d/" := rfl
  have h : ("arn:aws:ssm:" ++ region ++ ":" ++ accountId ++ ":parameter")
      ++ "/eduka3d/" =
      "arn:aws:ssm:" ++ region ++ ":" ++ accountId ++ ":parameter/eduka3d/" := by
    rw [String.append_assoc, hlit]
  show ["arn:aws:ssm:" ++ region ++ ":" ++ accountId ++ ":parameter/eduka3d/"
      ++ environment ++ "/*"] = _
  rw [← h]

/-- C7: the KMS decrypt policy is the fixed allow statement granting
exactly `kms:Decrypt` and `kms:DescribeKey` on the resource list `["*"]`;
being a constant, any two calls agree. -/
theorem createKmsDecryptPolicy_fixed :
    createKmsDecryptPolicy.actions = ["kms:Decrypt", "kms:DescribeKey"] ∧
    createKmsDecryptPolicy.resources = ["*"] ∧
    createKmsDecryptPolicy.effect = .allow :=
  ⟨rfl, rfl, rfl⟩

/-- C9: every key of the returned mapping is the `environmentVariable` of
some input spec, and the empty spec list yields the empty mapping. -/
theorem createSecretsMap_keys_from_specs (store : StoreBehavior)
    (environment : String) (parameters : List ParameterSecret)
    (M : SecretsMap) (W : List String)
    (h : createSecretsMap store environment parameters = .ok (M, W)) :
    (∀ k v, (k, v) ∈ M → ∃ p ∈ parameters, p.environmentVariable = k) ∧
    (parameters = [] → M = [] ∧ W = []) := by
  have hrun : secretsRun store environment parameters = (M, W) :=
    Except.ok.inj ((createSecretsMap_eq_run store environment parameters).symm.trans h)
  have hM : M = parameters.foldl (buildStep store environment) [] := by
    have h1 := congrArg Prod.fst hrun
    rw [secretsRun, secretsRun_fst] at h1
    exact h1.symm
  have hW : W = parameters.filterMap (specWarning store environment) := by
    have h2 := congrArg Prod.snd hrun
    rw [secretsRun, secretsRun_snd] at h2
    simpa using h2.symm
  refine ⟨fun k v hkv => ?_, fun hnil => ?_⟩
  · rw [hM] at hkv
    rcases mem_foldl_buildStep store environment parameters [] (k, v) hkv with
      hc | hc
    · cases hc
    · exact hc
  · subst hnil
    exact ⟨by rw [hM]; rfl, by rw [hW]; rfl⟩

/-- Witness for C9 at a concrete one-spec run. -/
theorem createSecretsMap_keys_from_specs_witness :
    ∃ p ∈ [demoSpec], p.environmentVariable = "K" :=
  (createSecretsMap_keys_from_specs okStore "dev" [demoSpec]
      [("K", ⟨"/eduka3d/dev/K"⟩)] [] rfl).1 "K" ⟨"/eduka3d/dev/K"⟩ (by decide)

/-- C10: every `DEFAULT_PARAMETERS` entry has a separator-free
`parameterPath` equal to its `environmentVariable`, hence resolves to the
namespaced path `/eduka3d/{environment}/{environmentVariable}` and never
takes the absolute-path escape hatch. -/
theorem default_parameters_bare_and_namespaced (p : ParameterSecret)
    (hp : p ∈ DEFAULT_PARAMETERS) :
    p.parameterPath.data.contains '/' = false ∧
    p.parameterPath = p.environmentVariable ∧
    ∀ environment, resolvePath environment p =
      "/eduka3d/" ++ environment ++ "/" ++ p.environmentVariable := by
  have hAll : ∀ q ∈ DEFAULT_PARAMETERS,
      q.parameterPath.data.contains '/' = false ∧
      q.parameterPath = q.environmentVariable := by decide
  have h := hAll p hp
  refine ⟨h.1, h.2, fun environment => ?_⟩
  rw [← h.2, resolvePath, h.1, if_neg Bool.false_ne_true]

/-- Witness for C10 at the first configuration entry. -/
theorem default_parameters_bare_and_namespaced_witness :
    resolvePath "prod"
        { environmentVariable := "DJANGO_SECRET_KEY",
          parameterPath := "DJANGO_SECRET_KEY",
          type := some .secureString, required := some true } =
      "/eduka3d/" ++ "prod" ++ "/" ++ "DJANGO_SECRET_KEY" :=
  (default_parameters_bare_and_namespaced
      { environmentVariable := "DJANGO_SECRET_KEY",
        parameterPath := "DJANGO_SECRET_KEY",
        type := some .secureString, required := some true }
      (by decide)).2.2 "prod"

/-- C1: when reference construction fails for a spec, the assembly still
returns normally; the failing spec's key is absent from the mapping
(provided every spec sharing its key also fails, so no other spec re-adds
it); and the warning log is exactly the per-spec warnings, which include
the failing spec's warning precisely when its `required` field is not
literally `false`. -/
theorem createSecretsMap_failure_nonfatal_warn_iff_required
    (store : StoreBehavior) (environment : String)
    (parameters : List ParameterSecret) (p : ParameterSecret) (e : StoreError)
    (hp : p ∈ parameters)
    (hf : store (resolvePath environment p) = some e)
    (hall : ∀ q ∈ parameters, q.environmentVariable = p.environmentVariable →
      (store (resolvePath environment q)).isSome = true) :
    ∃ M W, createSecretsMap store environment parameters = .ok (M, W) ∧
      mapLookup M p.environmentVariable = none ∧
      W = parameters.filterMap (specWarning store environment) ∧
      (p.required ≠ some false →
        warnMessage p.environmentVariable (resolvePath environment p) ∈ W) ∧
      (p.required = some false → specWarning store environment p = none) := by
  have hW : (secretsRun store environment parameters).2 =
      parameters.filterMap (specWarning store environment) := by
    rw [secretsRun, secretsRun_snd]
    rfl
  refine ⟨(secretsRun store environment parameters).1,
          (secretsRun store environment parameters).2,
          by rw [createSecretsMap_eq_run], ?_, hW, ?_, ?_⟩
  · rw [secretsRun, secretsRun_fst, mapLookup_foldl_buildStep,
      lastWrite_eq_none_of_all_fail]
    · rfl
    · intro q hq hqk
      have hs := hall q hq hqk
      cases hsq : store (resolvePath environment q) with
      | none => rw [hsq] at hs; exact absurd hs (by simp)
      | some err => simp [successSecret, hsq]
  · intro hr
    rw [hW]
    exact List.mem_filterMap.mpr ⟨p, hp, by simp [specWarning, hf, hr]⟩
  · intro hr
    simp [specWarning, hf, hr]

/-- Witness for C1 at a concrete failing one-spec run. -/
theorem createSecretsMap_failure_nonfatal_warn_iff_required_witness :
    ∃ M W, createSecretsMap failStore "dev" [demoSpec] = .ok (M, W) ∧
      mapLookup M demoSpec.environmentVariable = none ∧
      W = [demoSpec].filterMap (specWarning failStore "dev") ∧
      (demoSpec.required ≠ some false →
        warnMessage demoSpec.environmentVariable (resolvePath "dev" demoSpec) ∈ W) ∧
      (demoSpec.required = some false →
        specWarning failStore "dev" demoSpec = none) :=
  createSecretsMap_failure_nonfatal_warn_iff_required failStore "dev" [demoSpec]
    demoSpec .notFound (by decide) rfl (by decide)

/-- C2: with an earlier spec and a later spec sharing an environment
variable, both resolvable at distinct paths, and no later spec reusing the
variable, the mapping holds exactly one binding for that variable, bound to
the reference for the LAST such spec's resolved path. -/
theorem createSecretsMap_duplicate_key_last_wins
    (store : StoreBehavior) (environment : String)
    (l r : List ParameterSecret) (p1 p2 : ParameterSecret)
    (hp1 : p1 ∈ l)
    (hkey : p1.environmentVariable = p2.environmentVariable)
    (hok1 : store (resolvePath environment p1) = none)
    (hok2 : store (resolvePath environment p2) = none)
    (hdist : resolvePath environment p1 ≠ resolvePath environment p2)
    (hlast : ∀ q ∈ r, q.environmentVariable ≠ p2.environmentVariable) :
    ∃ M W, createSecretsMap store environment (l ++ p2 :: r) = .ok (M, W) ∧
      List.countP (fun kv => kv.1 == p2.environmentVariable) M = 1 ∧
      mapLookup M p2.environmentVariable =
        some { parameterName := resolvePath environment p2 } := by
  have hMdef : (secretsRun store environment (l ++ p2 :: r)).1 =
      (l ++ p2 :: r).foldl (buildStep store environment) [] := by
    rw [secretsRun, secretsRun_fst]
  have hlook : mapLookup ((l ++ p2 :: r).foldl (buildStep store environment) [])
      p2.environmentVariable =
      some { parameterName := resolvePath environment p2 } := by
    rw [mapLookup_foldl_buildStep, lastWrite_append]
    have hr0 : lastWrite store environment p2.environmentVariable r = none :=
      lastWrite_eq_none_of_no_key store environment _ r hlast
    have h2 : lastWrite store environment p2.environmentVariable (p2 :: r) =
        some { parameterName := resolvePath environment p2 } := by
      simp [lastWrite, hr0, successSecret, hok2]
    rw [h2]
  refine ⟨(secretsRun store environment (l ++ p2 :: r)).1,
          (secretsRun store environment (l ++ p2 :: r)).2,
          by rw [createSecretsMap_eq_run], ?_, ?_⟩
  · rw [hMdef]
    exact countP_key_eq_one _ _ _
      (keysNodup_foldl_buildStep store environment _ [] List.nodup_nil) hlook
  · rw [hMdef]
    exact hlook

/-- First spec of the C2 witness: bare key `K`. -/
def dupSpecA : ParameterSecret := { environmentVariable := "K", parameterPath := "K" }

/-- Second spec of the C2 witness: same variable, distinct absolute path. -/
def dupSpecB : ParameterSecret := { environmentVariable := "K", parameterPath := "/abs/K2" }

/-- Witness for C2 at a concrete two-spec run. -/
theorem createSecretsMap_duplicate_key_last_wins_witness :
    ∃ M W, createSecretsMap okStore "dev" ([dupSpecA] ++ dupSpecB :: []) =
        .ok (M, W) ∧
      List.countP (fun kv => kv.1 == dupSpecB.environmentVariable) M = 1 ∧
      mapLookup M dupSpecB.environmentVariable =
        some { parameterName := resolvePath "dev" dupSpecB } :=
  createSecretsMap_duplicate_key_last_wins okStore "dev" [dupSpecA] []
    dupSpecA dupSpecB (by decide) rfl rfl rfl (by decide) (by decide)

/-- Glob lemma: a pattern made of a literal part followed by a trailing
star matches any extension of that literal part. -/
theorem matchChars_append_star (l m : List Char) :
    matchChars (l ++ ['*']) (l ++ m) = true := by
  induction l with
  | nil => cases m <;> rfl
  | cons c cs ih =>
      rcases hcs : cs ++ ['*'] with _ | ⟨d, ds⟩
      · exact absurd hcs (by simp)
      · rw [List.cons_append, List.cons_append, hcs]
        show ((c == c) && matchChars (d :: ds) (cs ++ m)) = true
        rw [← hcs]
        simp [ih]

/-- The spec used in the C4 counterexample: an absolute `parameterPath`
taking the escape hatch. -/
def absSpec : ParameterSecret :=
  { environmentVariable := "X", parameterPath := "/other/X" }

/-- C4 counterexample: a spec using the absolute-path escape hatch resolves
outside `/eduka3d/{environment}/`, so its resolved path is not of the
claimed namespaced form and its parameter ARN is not matched by the access
policy's resource pattern, refuting the claim quantified over every spec. -/
theorem resolved_path_policy_match_counterexample :
    ¬ ((∃ suffix, resolvePath "dev" absSpec =
          "/eduka3d/" ++ "dev" ++ "/" ++ suffix) ∧
       ∀ pat ∈ (createParameterStorePolicy "dev" "eu-central-1"
          "123456789012").resources,
         matchesPattern pat (parameterArn "eu-central-1" "123456789012"
          (resolvePath "dev" absSpec)) = true) := by
  intro h
  have hm := h.2 ("arn:aws:ssm:" ++ "eu-central-1" ++ ":" ++ "123456789012"
    ++ ":parameter/eduka3d/" ++ "dev" ++ "/*") (by decide)
  exact absurd hm (by decide)

/-- C4 amended: for every spec whose `parameterPath` contains no separator,
the resolved path is of the namespaced form `/eduka3d/{environment}/{suffix}`
and its parameter ARN is matched by the resource pattern of the access
policy built for the same environment. -/
theorem resolved_path_policy_match_for_bare_keys
    (param : ParameterSecret) (environment region accountId : String)
    (h : param.parameterPath.data.contains '/' = false) :
    (∃ suffix, resolvePath environment param =
      "/eduka3d/" ++ environment ++ "/" ++ suffix) ∧
    ∀ pat ∈ (createParameterStorePolicy environment region accountId).resources,
      matchesPattern pat (parameterArn region accountId
        (resolvePath environment param)) = true := by
  have hres : resolvePath environment param =
      "/eduka3d/" ++ environment ++ "/" ++ param.parameterPath := by
    rw [resolvePath, h, if_neg Bool.false_ne_true]
  refine ⟨⟨param.parameterPath, hres⟩, ?_⟩
  intro pat hpat
  rcases List.mem_singleton.mp hpat with rfl
  rw [hres]
  show matchChars _ _ = true
  have e1 : ("arn:aws:ssm:" ++ region ++ ":" ++ accountId
      ++ ":parameter/eduka3d/" ++ environment ++ "/*").data =
      (("arn:aws:ssm:" : String).data ++ (region.data
        ++ ((":" : String).data ++ (accountId.data
        ++ ((":parameter" : String).data ++ (("/eduka3d/" : String).data
        ++ (environment.data ++ ("/" : String).data)))))))
        ++ ['*'] := by
    simp [String.data_append, List.append_assoc]
  have e2 : (parameterArn region accountId
      ("/eduka3d/" ++ environment ++ "/" ++ param.parameterPath)).data =
      (("arn:aws:ssm:" : String).data ++ (region.data
        ++ ((":" : String).data ++ (accountId.data
        ++ ((":parameter" : String).data ++ (("/eduka3d/" : String).data
        ++ (environment.data ++ ("/" : String).data)))))))
        ++ param.parameterPath.data := by
    simp [parameterArn, String.data_append, List.append_assoc]
  rw [e1, e2]
  exact matchChars_append_star _ _

/-- Witness for the amended C4 at a concrete bare-key spec. -/
theorem resolved_path_policy_match_for_bare_keys_witness :
    (∃ suffix, resolvePath "dev" demoSpec =
      "/eduka3d/" ++ "dev" ++ "/" ++ suffix) ∧
    ∀ pat ∈ (createParameterStorePolicy "dev" "eu-central-1"
        "123456789012").resources,
      matchesPattern pat (parameterArn "eu-central-1" "123456789012"
        (resolvePath "dev" demoSpec)) = true :=
  resolved_path_policy_match_for_bare_keys demoSpec "dev" "eu-central-1"
    "123456789012" (by decide)

/-- Erasure of the informational `type` field of a spec. -/
def stripT (param : ParameterSecret) : ParameterSecret :=
  { param with type := none }

/-- The loop body never reads the `type` field. -/
theorem processParamPure_stripT (store : StoreBehavior) (environment : String)
    (acc : SecretsMap × List String) (param : ParameterSecret) :
    processParamPure store environment acc (stripT param) =
      processParamPure store environment acc param := rfl

/-- The pure run never reads the `type` field. -/
theorem foldl_processParamPure_stripT (store : StoreBehavior)
    (environment : String) (parameters : List ParameterSecret)
    (acc : SecretsMap × List String) :
    (parameters.map stripT).foldl (processParamPure store environment) acc =
      parameters.foldl (processParamPure store environment) acc := by
  induction parameters generalizing acc with
  | nil => rfl
  | cons p ps ih =>
      rw [List.map_cons, List.foldl_cons, List.foldl_cons,
        processParamPure_stripT]
      exact ih _

/-- Path resolution never reads the `type` field. -/
theorem map_resolvePath_stripT (environment : String)
    (parameters : List ParameterSecret) :
    (parameters.map stripT).map (resolvePath environment) =
      parameters.map (resolvePath environment) := by
  induction parameters with
  | nil => rfl
  | cons p ps ih => rw [List.map_cons, List.map_cons, List.map_cons, ih]; rfl

/-- C8: the `type` field is noninterfering: two spec lists equal up to
their `type` fields resolve the same storage paths and produce identical
mappings and warnings. -/
theorem createSecretsMap_type_noninterference
    (store : StoreBehavior) (environment : String)
    (ps1 ps2 : List ParameterSecret)
    (h : ps1.map stripT = ps2.map stripT) :
    createSecretsMap store environment ps1 =
      createSecretsMap store environment ps2 ∧
    ps1.map (resolvePath environment) = ps2.map (resolvePath environment) := by
  constructor
  · rw [createSecretsMap_eq_run, createSecretsMap_eq_run, secretsRun, secretsRun,
      ← foldl_processParamPure_stripT store environment ps1, h,
      foldl_processParamPure_stripT]
  · rw [← map_resolvePath_stripT environment ps1, h, map_resolvePath_stripT]

/-- Witness for C8 at two concrete one-spec lists differing only in `type`. -/
theorem createSecretsMap_type_noninterference_witness :
    createSecretsMap okStore "dev"
        [{ environmentVariable := "K", parameterPath := "K",
           type := some .string, required := some true }] =
      createSecretsMap okStore "dev"
        [{ environmentVariable := "K", parameterPath := "K",
           type := some .secureString, required := some true }] ∧
    [({ environmentVariable := "K", parameterPath := "K",
        type := some .string, required := some true } : ParameterSecret)].map
          (resolvePath "dev") =
      [({ environmentVariable := "K", parameterPath := "K",
          type := some .secureString, required := some true } :
            ParameterSecret)].map (resolvePath "dev") :=
  createSecretsMap_type_noninterference okStore "dev" _ _ (by decide)
